import Mathlib

/-!
# Task Manager API — shallow embedding

Shallow embedding of `src/main.py` and `src/models.py` of the
`task-manager-api` repository, together with proofs about its claims.

Modelling decisions (all traced to the source):

* Python `datetime.now()` is an external input; every handler that calls it
  (`create_task`, `update_task`, `partial_update_task`) takes an explicit
  `now : Nat` argument standing for the value `datetime.now()` returns during
  that request.  Timestamps are `Nat`.
* The module-level `fake_db : Dict[int, TaskInDB]` and `next_id : int` are an
  explicit `Store` record threaded through the handlers.  The dict is an
  association list with insertion-order semantics: assignment to an existing
  key replaces in place, assignment to a fresh key appends, `del` removes the
  key.
* Pydantic boundary validation is modelled per the declared field schemas of
  `models.py`.  A request-body field is a `JVal` (absent fields are `none` in
  `Body`).  `TaskPatch` keeps pydantic's `model_fields_set`
  (`exclude_unset=True`) information: the outer `Option` of each field is
  "was the field present in the body", the inner value is what was supplied
  (pydantic accepts an explicit `null` for an `Optional[...]` field even when
  the field carries `min_length`/`max_length` constraints, which constrain
  only the `str` branch of the union).
* `TaskInDB.model_copy(update=...)` (used by the PATCH handler) bypasses
  validation, so the runtime object stored in `fake_db` can hold `None` in
  its `title` and `completed` slots even though the pydantic model declares
  them `str` / `bool`.  The embedded `TaskInDB` therefore gives those slots
  `Option` types; `create_task` and `update_task` always store `some`.
* Pydantic string-coercion corner cases (e.g. lax `"true" → bool`) are not
  modelled; `JVal` covers the JSON shapes (null / string / boolean) the
  claims quantify over.
-/

/-- A JSON value occurring in a request-body field. -/
inductive JVal where
  | jnull
  | jstr (s : String)
  | jbool (b : Bool)
deriving DecidableEq, Repr

/-- A request body for the task endpoints: each of the three schema fields is
either absent (`none`) or present with a JSON value. -/
structure Body where
  title : Option JVal
  description : Option JVal
  completed : Option JVal
deriving DecidableEq, Repr

/-- `models.TaskCreate` (inherits `TaskBase`): `title: str` (required,
1–100), `description: Optional[str] = None`, `completed: bool = False`. -/
structure TaskCreate where
  title : String
  description : Option String
  completed : Bool
deriving DecidableEq, Repr

/-- `models.TaskPut`: the same field schema as `TaskCreate`. -/
structure TaskPut where
  title : String
  description : Option String
  completed : Bool
deriving DecidableEq, Repr

/-- `models.TaskPatch` with pydantic `model_fields_set` information.  For each
field the outer `Option` is "explicitly present in the request body"; the
inner `Option` is the validated value (which may be `none`: pydantic accepts
an explicit JSON `null` for `Optional[...]` fields). -/
structure TaskPatch where
  title : Option (Option String)
  description : Option (Option String)
  completed : Option (Option Bool)
deriving DecidableEq, Repr

/-- `models.TaskInDB` as actually stored in `fake_db`.  The pydantic model
declares `title: str` and `completed: bool`, but the PATCH handler builds the
stored object with `model_copy(update=...)`, which does not re-validate, so
`None` can end up in those slots at runtime; the embedding types them
`Option` to represent that. -/
structure TaskInDB where
  id : Nat
  title : Option String
  description : Option String
  completed : Option Bool
  created_at : Nat
  updated_at : Nat
deriving DecidableEq, Repr

/-- `Field(..., min_length=1, max_length=100)` on a string value. -/
def validTitle (s : String) : Bool :=
  1 ≤ s.length && s.length ≤ 100

/-- Validate the `title` field of `TaskCreate`/`TaskPut`: required, must be a
string of length 1–100; `null` is rejected (the field is not `Optional`). -/
def reqTitleField : Option JVal → Option String
  | some (JVal.jstr s) => if validTitle s then some s else none
  | _ => none

/-- Validate an `Optional[str] = None` field (no length constraint in the
source): absent and `null` both give `None`; a string is taken as-is. -/
def optStrField : Option JVal → Option (Option String)
  | none => some none
  | some JVal.jnull => some none
  | some (JVal.jstr s) => some (some s)
  | some (JVal.jbool _) => none

/-- Validate a `completed: bool = False` field: absent gives the default
`False`; `null` is rejected (not `Optional`). -/
def boolFieldDefFalse : Option JVal → Option Bool
  | none => some false
  | some (JVal.jbool b) => some b
  | _ => none

/-- Validate a `Optional[str] = Field(None, min_length=1, max_length=100)`
PATCH field: absent means unset; explicit `null` validates to `None` (the
length constraints apply only to the `str` branch of the union); a string
must have length 1–100. -/
def patchTitleField : Option JVal → Option (Option (Option String))
  | none => some none
  | some JVal.jnull => some (some none)
  | some (JVal.jstr s) => if validTitle s then some (some (some s)) else none
  | some (JVal.jbool _) => none

/-- Validate the `description: Optional[str] = Field(None)` PATCH field. -/
def patchStrField : Option JVal → Option (Option (Option String))
  | none => some none
  | some JVal.jnull => some (some none)
  | some (JVal.jstr s) => some (some (some s))
  | some (JVal.jbool _) => none

/-- Validate the `completed: Optional[bool] = None` PATCH field. -/
def patchBoolField : Option JVal → Option (Option (Option Bool))
  | none => some none
  | some JVal.jnull => some (some none)
  | some (JVal.jbool b) => some (some (some b))
  | some (JVal.jstr _) => none

/-- Pydantic validation of a request body against `TaskCreate`. -/
def parseTaskCreate (b : Body) : Option TaskCreate :=
  match reqTitleField b.title, optStrField b.description,
        boolFieldDefFalse b.completed with
  | some t, some d, some c => some ⟨t, d, c⟩
  | _, _, _ => none

/-- Pydantic validation of a request body against `TaskPut`. -/
def parseTaskPut (b : Body) : Option TaskPut :=
  match reqTitleField b.title, optStrField b.description,
        boolFieldDefFalse b.completed with
  | some t, some d, some c => some ⟨t, d, c⟩
  | _, _, _ => none

/-- Pydantic validation of a request body against `TaskPatch`, keeping the
fields-set information needed by `model_dump(exclude_unset=True)`. -/
def parseTaskPatch (b : Body) : Option TaskPatch :=
  match patchTitleField b.title, patchStrField b.description,
        patchBoolField b.completed with
  | some t, some d, some c => some ⟨t, d, c⟩
  | _, _, _ => none

/-- `fake_db` lookup (`task_id in fake_db` / `fake_db[task_id]`). -/
def dbLookup (db : List (Nat × TaskInDB)) (k : Nat) : Option TaskInDB :=
  match db with
  | [] => none
  | (k₁, v) :: rest => if k₁ = k then some v else dbLookup rest k

/-- Python dict assignment `fake_db[k] = v`: replace in place if the key is
present, append otherwise. -/
def dbSet (db : List (Nat × TaskInDB)) (k : Nat) (v : TaskInDB) :
    List (Nat × TaskInDB) :=
  match db with
  | [] => [(k, v)]
  | (k₁, v₁) :: rest =>
    if k₁ = k then (k, v) :: rest else (k₁, v₁) :: dbSet rest k v

/-- Python dict deletion `del fake_db[k]`: drop the entry with key `k`. -/
def dbErase (db : List (Nat × TaskInDB)) (k : Nat) : List (Nat × TaskInDB) :=
  match db with
  | [] => []
  | (k₁, v) :: rest =>
    if k₁ = k then dbErase rest k else (k₁, v) :: dbErase rest k

/-- The module-level mutable state of `main.py`: `fake_db` and `next_id`. -/
structure Store where
  fake_db : List (Nat × TaskInDB)
  next_id : Nat
deriving DecidableEq, Repr

/-- The initial state: `fake_db = {}`, `next_id = 1`. -/
def initStore : Store := { fake_db := [], next_id := 1 }

/-- `raise HTTPException(status_code=..., detail=...)`. -/
structure HTTPError where
  status_code : Nat
  detail : String
deriving DecidableEq, Repr

/-- The one error the handlers raise. -/
def notFound : HTTPError := ⟨404, "Task not found"⟩

/-- `GET /tasks/{task_id}` handler (`main.get_task`). -/
def get_task (s : Store) (task_id : Nat) : Except HTTPError TaskInDB :=
  match dbLookup s.fake_db task_id with
  | none => .error notFound
  | some t => .ok t

/-- `POST /tasks` handler (`main.create_task`); `now` is the value of
`datetime.now()` during the request.  Always succeeds on a validated body. -/
def create_task (s : Store) (now : Nat) (task : TaskCreate) :
    Store × TaskInDB :=
  let current_time := now
  let new_task : TaskInDB :=
    { id := s.next_id
      created_at := current_time
      updated_at := current_time
      title := some task.title
      description := task.description
      completed := some task.completed }
  ({ fake_db := dbSet s.fake_db new_task.id new_task
     next_id := s.next_id + 1 },
   new_task)

/-- `PUT /tasks/{task_id}` handler (`main.update_task`). -/
def update_task (s : Store) (now : Nat) (task_id : Nat) (task : TaskPut) :
    Except HTTPError (Store × TaskInDB) :=
  match dbLookup s.fake_db task_id with
  | none => .error notFound
  | some existing_task =>
    let updated_task_obj : TaskInDB :=
      { id := task_id
        created_at := existing_task.created_at
        updated_at := now
        title := some task.title
        description := task.description
        completed := some task.completed }
    .ok ({ s with fake_db := dbSet s.fake_db task_id updated_task_obj },
         updated_task_obj)

/-- `existing_task.model_copy(update=task_update.model_dump(exclude_unset=True))`:
every field explicitly present in the PATCH body overwrites the stored slot
without re-validation; unset fields keep their prior value. -/
def model_copy_update (t : TaskInDB) (p : TaskPatch) : TaskInDB :=
  { t with
    title := p.title.getD t.title
    description := p.description.getD t.description
    completed := p.completed.getD t.completed }

/-- `PATCH /tasks/{task_id}` handler (`main.partial_update_task`). -/
def partial_update_task (s : Store) (now : Nat) (task_id : Nat)
    (task_update : TaskPatch) : Except HTTPError (Store × TaskInDB) :=
  match dbLookup s.fake_db task_id with
  | none => .error notFound
  | some existing_task =>
    let updated_task_data :=
      { model_copy_update existing_task task_update with updated_at := now }
    .ok ({ s with fake_db := dbSet s.fake_db task_id updated_task_data },
         updated_task_data)

/-- `DELETE /tasks/{task_id}` handler (`main.delete_task`). -/
def delete_task (s : Store) (task_id : Nat) : Except HTTPError Store :=
  match dbLookup s.fake_db task_id with
  | none => .error notFound
  | some _ => .ok { s with fake_db := dbErase s.fake_db task_id }

/-- An inbound HTTP request to one of the five task endpoints.  Requests whose
handler calls `datetime.now()` carry the time that call returns. -/
inductive Req where
  | getTask (task_id : Nat)
  | postTask (now : Nat) (body : Body)
  | putTask (now : Nat) (task_id : Nat) (body : Body)
  | patchTask (now : Nat) (task_id : Nat) (body : Body)
  | deleteTask (task_id : Nat)
deriving DecidableEq, Repr

/-- The response of a request: the constructor fixes the HTTP status per the
route decorators of `main.py` (201 for POST, 204 for DELETE, 200 otherwise,
the `HTTPException` status on error, FastAPI's 422 on body-validation
failure). -/
inductive Resp where
  | created (t : TaskInDB)
  | okTask (t : TaskInDB)
  | noContent
  | httpError (e : HTTPError)
  | validationError
deriving DecidableEq, Repr

/-- HTTP status code of a response. -/
def statusOf : Resp → Nat
  | .created _ => 201
  | .okTask _ => 200
  | .noContent => 204
  | .httpError e => e.status_code
  | .validationError => 422

/-- One request: FastAPI validates the body against the route's model before
the handler runs (422 short-circuits without touching the store), then the
handler reads/mutates the store. -/
def handle (s : Store) (r : Req) : Store × Resp :=
  match r with
  | .getTask id =>
    match get_task s id with
    | .error e => (s, .httpError e)
    | .ok t => (s, .okTask t)
  | .postTask now b =>
    match parseTaskCreate b with
    | none => (s, .validationError)
    | some tc =>
      let (s₁, t) := create_task s now tc
      (s₁, .created t)
  | .putTask now id b =>
    match parseTaskPut b with
    | none => (s, .validationError)
    | some tp =>
      match update_task s now id tp with
      | .error e => (s, .httpError e)
      | .ok (s₁, t) => (s₁, .okTask t)
  | .patchTask now id b =>
    match parseTaskPatch b with
    | none => (s, .validationError)
    | some tp =>
      match partial_update_task s now id tp with
      | .error e => (s, .httpError e)
      | .ok (s₁, t) => (s₁, .okTask t)
  | .deleteTask id =>
    match delete_task s id with
    | .error e => (s, .httpError e)
    | .ok s₁ => (s₁, .noContent)

/-- Run a sequence of requests, collecting the responses in order. -/
def runTrace (s : Store) : List Req → Store × List Resp
  | [] => (s, [])
  | r :: rs =>
    let p := handle s r
    let q := runTrace p.1 rs
    (q.1, p.2 :: q.2)

/-- The `datetime.now()` value a request consumes, when its handler calls it. -/
def reqTime : Req → Option Nat
  | .postTask now _ => some now
  | .putTask now _ _ => some now
  | .patchTask now _ _ => some now
  | _ => none

/-- The wall clock is monotone along the trace: each `datetime.now()` result
is at least the previous one (and at least the starting bound `c`). -/
def timesMono (c : Nat) : List Req → Bool
  | [] => true
  | r :: rs =>
    match reqTime r with
    | none => timesMono c rs
    | some n => decide (c ≤ n) && timesMono n rs

/-- The task carried by a `201 Created` response, if the response is one. -/
def createdTask : Resp → Option TaskInDB
  | .created t => some t
  | _ => none

/-- The id removed by a successful DELETE request, if the event is one. -/
def deletedId : Req × Resp → Option Nat
  | (Req.deleteTask i, Resp.noContent) => some i
  | _ => none

/-- Relation between an earlier and a later (request, response) event:
successively created ids strictly increase, and an id whose DELETE succeeded
earlier is not the id of a later-created task. -/
def IdRel (x y : Req × Resp) : Prop :=
  (∀ a b, createdTask x.2 = some a → createdTask y.2 = some b → a.id < b.id) ∧
  (∀ i b, deletedId x = some i → createdTask y.2 = some b → b.id ≠ i)

/-- Store invariant: every key in `fake_db` is below the `next_id` counter. -/
def KeysLt (s : Store) : Prop :=
  ∀ p ∈ s.fake_db, p.1 < s.next_id

/-- Store invariant relative to a clock bound `c`: every stored task has
`created_at ≤ updated_at` and its `updated_at` is no later than `c`. -/
def TimeInv (c : Nat) (s : Store) : Prop :=
  ∀ p ∈ s.fake_db, p.2.created_at ≤ p.2.updated_at ∧ p.2.updated_at ≤ c

/-- The last `datetime.now()` value consumed along a trace (or the starting
bound `c` if no request consumes the clock). -/
def clockAfter (c : Nat) : List Req → Nat
  | [] => c
  | r :: rs =>
    match reqTime r with
    | none => clockAfter c rs
    | some n => clockAfter n rs

/-- Store invariant: every stored task whose `title` slot holds a string
holds one that satisfies the boundary constraint (length 1–100). -/
def TitleInv (s : Store) : Prop :=
  ∀ p ∈ s.fake_db, ∀ str, p.2.title = some str → validTitle str = true

/-! ## Dictionary lemmas -/

theorem dbLookup_dbSet_self (db : List (Nat × TaskInDB)) (k : Nat)
    (v : TaskInDB) : dbLookup (dbSet db k v) k = some v := by
  induction db with
  | nil => simp [dbSet, dbLookup]
  | cons p rest ih =>
    obtain ⟨k₁, v₁⟩ := p
    by_cases h : k₁ = k <;> simp [dbSet, dbLookup, h, ih]

theorem dbLookup_dbSet_ne (db : List (Nat × TaskInDB)) (k i : Nat)
    (v : TaskInDB) (h : i ≠ k) :
    dbLookup (dbSet db k v) i = dbLookup db i := by
  have h' : ¬(k = i) := fun hh => h hh.symm
  induction db with
  | nil => simp [dbSet, dbLookup, h']
  | cons p rest ih =>
    obtain ⟨k₁, v₁⟩ := p
    by_cases hk : k₁ = k
    · subst hk
      simp [dbSet, dbLookup, h']
    · simp [dbSet, dbLookup, hk, ih]

theorem dbLookup_dbErase_self (db : List (Nat × TaskInDB)) (k : Nat) :
    dbLookup (dbErase db k) k = none := by
  induction db with
  | nil => rfl
  | cons p rest ih =>
    obtain ⟨k₁, v₁⟩ := p
    by_cases h : k₁ = k <;> simp [dbErase, dbLookup, h, ih]

theorem dbLookup_dbErase_ne (db : List (Nat × TaskInDB)) (k i : Nat)
    (h : i ≠ k) : dbLookup (dbErase db k) i = dbLookup db i := by
  have h' : ¬(k = i) := fun hh => h hh.symm
  induction db with
  | nil => rfl
  | cons p rest ih =>
    obtain ⟨k₁, v₁⟩ := p
    by_cases hk : k₁ = k
    · subst hk
      simp [dbErase, dbLookup, h', ih]
    · simp [dbErase, dbLookup, hk, ih]

theorem mem_dbSet (db : List (Nat × TaskInDB)) (k : Nat) (v : TaskInDB)
    (p : Nat × TaskInDB) (hp : p ∈ dbSet db k v) : p = (k, v) ∨ p ∈ db := by
  induction db with
  | nil => simpa [dbSet] using hp
  | cons q rest ih =>
    obtain ⟨k₁, v₁⟩ := q
    by_cases h : k₁ = k
    · simp only [dbSet, if_pos h, List.mem_cons] at hp
      rcases hp with hp | hp
      · exact Or.inl hp
      · exact Or.inr (List.mem_cons_of_mem _ hp)
    · simp only [dbSet, if_neg h, List.mem_cons] at hp
      rcases hp with hp | hp
      · exact Or.inr (by simp [hp])
      · rcases ih hp with hp | hp
        · exact Or.inl hp
        · exact Or.inr (List.mem_cons_of_mem _ hp)

theorem mem_dbErase (db : List (Nat × TaskInDB)) (k : Nat)
    (p : Nat × TaskInDB) (hp : p ∈ dbErase db k) : p ∈ db := by
  induction db with
  | nil => simp [dbErase] at hp
  | cons q rest ih =>
    obtain ⟨k₁, v₁⟩ := q
    by_cases h : k₁ = k
    · simp only [dbErase, if_pos h] at hp
      exact List.mem_cons_of_mem _ (ih hp)
    · simp only [dbErase, if_neg h, List.mem_cons] at hp
      rcases hp with hp | hp
      · simp [hp]
      · exact List.mem_cons_of_mem _ (ih hp)

theorem dbLookup_mem (db : List (Nat × TaskInDB)) (k : Nat) (t : TaskInDB)
    (h : dbLookup db k = some t) : (k, t) ∈ db := by
  induction db with
  | nil => simp [dbLookup] at h
  | cons p rest ih =>
    obtain ⟨k₁, v₁⟩ := p
    by_cases hk : k₁ = k
    · subst hk
      have h₂ : some v₁ = some t := by simpa [dbLookup] using h
      cases h₂
      exact List.mem_cons_self _ _
    · simp only [dbLookup, if_neg hk] at h
      exact List.mem_cons_of_mem _ (ih h)

/-! ## Validation lemmas -/

theorem reqTitleField_valid (v : Option JVal) (s : String)
    (h : reqTitleField v = some s) : validTitle s = true := by
  match v with
  | none => simp [reqTitleField] at h
  | some JVal.jnull => simp [reqTitleField] at h
  | some (JVal.jbool b) => simp [reqTitleField] at h
  | some (JVal.jstr s₁) =>
    simp only [reqTitleField] at h
    by_cases hv : validTitle s₁ = true
    · rw [if_pos hv] at h
      cases h
      exact hv
    · rw [if_neg hv] at h
      exact Option.noConfusion h

theorem patchTitleField_valid (v : Option JVal) (s : String)
    (h : patchTitleField v = some (some (some s))) : validTitle s = true := by
  match v with
  | none => simp [patchTitleField] at h
  | some JVal.jnull => simp [patchTitleField] at h
  | some (JVal.jbool b) => simp [patchTitleField] at h
  | some (JVal.jstr s₁) =>
    simp only [patchTitleField] at h
    by_cases hv : validTitle s₁ = true
    · rw [if_pos hv] at h
      cases h
      exact hv
    · rw [if_neg hv] at h
      exact Option.noConfusion h

theorem parseTaskCreate_fields (b : Body) (tc : TaskCreate)
    (h : parseTaskCreate b = some tc) :
    reqTitleField b.title = some tc.title ∧
    optStrField b.description = some tc.description ∧
    boolFieldDefFalse b.completed = some tc.completed := by
  unfold parseTaskCreate at h
  cases ht : reqTitleField b.title <;> rw [ht] at h
  case none => exact absurd h (by simp)
  case some t =>
  cases hd : optStrField b.description <;> rw [hd] at h
  case none => exact absurd h (by simp)
  case some d =>
  cases hc : boolFieldDefFalse b.completed <;> rw [hc] at h
  case none => exact absurd h (by simp)
  case some c =>
  cases h
  exact ⟨rfl, rfl, rfl⟩

theorem parseTaskPut_fields (b : Body) (tp : TaskPut)
    (h : parseTaskPut b = some tp) :
    reqTitleField b.title = some tp.title ∧
    optStrField b.description = some tp.description ∧
    boolFieldDefFalse b.completed = some tp.completed := by
  unfold parseTaskPut at h
  cases ht : reqTitleField b.title <;> rw [ht] at h
  case none => exact absurd h (by simp)
  case some t =>
  cases hd : optStrField b.description <;> rw [hd] at h
  case none => exact absurd h (by simp)
  case some d =>
  cases hc : boolFieldDefFalse b.completed <;> rw [hc] at h
  case none => exact absurd h (by simp)
  case some c =>
  cases h
  exact ⟨rfl, rfl, rfl⟩

theorem parseTaskPatch_fields (b : Body) (p : TaskPatch)
    (h : parseTaskPatch b = some p) :
    patchTitleField b.title = some p.title ∧
    patchStrField b.description = some p.description ∧
    patchBoolField b.completed = some p.completed := by
  unfold parseTaskPatch at h
  cases ht : patchTitleField b.title <;> rw [ht] at h
  case none => exact absurd h (by simp)
  case some t =>
  cases hd : patchStrField b.description <;> rw [hd] at h
  case none => exact absurd h (by simp)
  case some d =>
  cases hc : patchBoolField b.completed <;> rw [hc] at h
  case none => exact absurd h (by simp)
  case some c =>
  cases h
  exact ⟨rfl, rfl, rfl⟩

/-! ## Handler unfolding lemmas -/

theorem get_task_found (s : Store) (task_id : Nat) (t₀ : TaskInDB)
    (h : dbLookup s.fake_db task_id = some t₀) :
    get_task s task_id = .ok t₀ := by
  unfold get_task
  rw [h]

theorem get_task_notFound (s : Store) (task_id : Nat)
    (h : dbLookup s.fake_db task_id = none) :
    get_task s task_id = .error notFound := by
  unfold get_task
  rw [h]

theorem update_task_found (s : Store) (now task_id : Nat) (tp : TaskPut)
    (t₀ : TaskInDB) (h : dbLookup s.fake_db task_id = some t₀) :
    update_task s now task_id tp = .ok
      (⟨dbSet s.fake_db task_id
          ⟨task_id, some tp.title, tp.description, some tp.completed,
           t₀.created_at, now⟩,
        s.next_id⟩,
       ⟨task_id, some tp.title, tp.description, some tp.completed,
        t₀.created_at, now⟩) := by
  unfold update_task
  rw [h]

theorem update_task_notFound (s : Store) (now task_id : Nat) (tp : TaskPut)
    (h : dbLookup s.fake_db task_id = none) :
    update_task s now task_id tp = .error notFound := by
  unfold update_task
  rw [h]

theorem partial_update_task_found (s : Store) (now task_id : Nat)
    (p : TaskPatch) (t₀ : TaskInDB)
    (h : dbLookup s.fake_db task_id = some t₀) :
    partial_update_task s now task_id p = .ok
      (⟨dbSet s.fake_db task_id
          ({ model_copy_update t₀ p with updated_at := now }),
        s.next_id⟩,
       { model_copy_update t₀ p with updated_at := now }) := by
  unfold partial_update_task
  rw [h]

theorem partial_update_task_notFound (s : Store) (now task_id : Nat)
    (p : TaskPatch) (h : dbLookup s.fake_db task_id = none) :
    partial_update_task s now task_id p = .error notFound := by
  unfold partial_update_task
  rw [h]

theorem delete_task_found (s : Store) (task_id : Nat) (t₀ : TaskInDB)
    (h : dbLookup s.fake_db task_id = some t₀) :
    delete_task s task_id = .ok { s with fake_db := dbErase s.fake_db task_id } := by
  unfold delete_task
  rw [h]

theorem delete_task_notFound (s : Store) (task_id : Nat)
    (h : dbLookup s.fake_db task_id = none) :
    delete_task s task_id = .error notFound := by
  unfold delete_task
  rw [h]

/-! ## Claim theorems -/

/-- C4: for every valid create request with fields F, creating a task with F
and immediately getting it by the returned id succeeds and yields a task
whose title, description and completed equal F, and whose `created_at`
equals its `updated_at`. -/
theorem create_then_get_roundtrip (s : Store) (now : Nat) (b : Body)
    (tc : TaskCreate) (_hb : parseTaskCreate b = some tc) :
    get_task (create_task s now tc).1 (create_task s now tc).2.id =
      .ok (create_task s now tc).2 ∧
    (create_task s now tc).2.title = some tc.title ∧
    (create_task s now tc).2.description = tc.description ∧
    (create_task s now tc).2.completed = some tc.completed ∧
    (create_task s now tc).2.created_at = (create_task s now tc).2.updated_at := by
  refine ⟨?_, rfl, rfl, rfl, rfl⟩
  exact get_task_found _ _ _ (dbLookup_dbSet_self s.fake_db s.next_id _)

/-- Witness for C4 at a concrete valid create request. -/
theorem create_then_get_roundtrip_witness :
    get_task (create_task initStore 4 ⟨"A", none, false⟩).1
        (create_task initStore 4 ⟨"A", none, false⟩).2.id =
      .ok (create_task initStore 4 ⟨"A", none, false⟩).2 ∧
    (create_task initStore 4 ⟨"A", none, false⟩).2.title = some "A" ∧
    (create_task initStore 4 ⟨"A", none, false⟩).2.description = none ∧
    (create_task initStore 4 ⟨"A", none, false⟩).2.completed = some false ∧
    (create_task initStore 4 ⟨"A", none, false⟩).2.created_at =
      (create_task initStore 4 ⟨"A", none, false⟩).2.updated_at :=
  create_then_get_roundtrip initStore 4 ⟨some (JVal.jstr "A"), none, none⟩
    ⟨"A", none, false⟩ (by decide)

/-- C5: a valid PUT on a stored task keeps the original id and `created_at`,
strictly advances `updated_at` (the clock having advanced), and overwrites
title, description and completed with the request-body values. -/
theorem put_replaces_all_fields (s : Store) (now task_id : Nat) (b : Body)
    (tp : TaskPut) (t₀ : TaskInDB)
    (_hb : parseTaskPut b = some tp)
    (h₀ : dbLookup s.fake_db task_id = some t₀)
    (hclock : t₀.updated_at < now) :
    ∃ s₁ t₁, update_task s now task_id tp = .ok (s₁, t₁) ∧
      dbLookup s₁.fake_db task_id = some t₁ ∧
      t₁.id = task_id ∧
      t₁.created_at = t₀.created_at ∧
      t₀.updated_at < t₁.updated_at ∧
      t₁.title = some tp.title ∧
      t₁.description = tp.description ∧
      t₁.completed = some tp.completed :=
  ⟨_, _, update_task_found s now task_id tp t₀ h₀,
    dbLookup_dbSet_self s.fake_db task_id _,
    rfl, rfl, hclock, rfl, rfl, rfl⟩

/-- Witness for C5 at a concrete store and PUT request. -/
theorem put_replaces_all_fields_witness :
    ∃ s₁ t₁,
      update_task ⟨[(1, ⟨1, some "A", none, some false, 0, 0⟩)], 2⟩ 5 1
          ⟨"B", some "d", true⟩ = .ok (s₁, t₁) ∧
      dbLookup s₁.fake_db 1 = some t₁ ∧
      t₁.id = 1 ∧
      t₁.created_at = (⟨1, some "A", none, some false, 0, 0⟩ : TaskInDB).created_at ∧
      (⟨1, some "A", none, some false, 0, 0⟩ : TaskInDB).updated_at < t₁.updated_at ∧
      t₁.title = some "B" ∧
      t₁.description = some "d" ∧
      t₁.completed = some true :=
  put_replaces_all_fields ⟨[(1, ⟨1, some "A", none, some false, 0, 0⟩)], 2⟩ 5 1
    ⟨some (JVal.jstr "B"), some (JVal.jstr "d"), some (JVal.jbool true)⟩
    ⟨"B", some "d", true⟩ ⟨1, some "A", none, some false, 0, 0⟩
    (by decide) (by decide) (by decide)

/-- C1: a valid PATCH on a stored task leaves every field absent from the
request body at its prior value, sets every explicitly present field to the
supplied value (including an explicit `null`), and strictly advances
`updated_at` (the clock having advanced). -/
theorem patch_applies_only_present_fields (s : Store) (now task_id : Nat)
    (b : Body) (p : TaskPatch) (t₀ : TaskInDB)
    (hb : parseTaskPatch b = some p)
    (h₀ : dbLookup s.fake_db task_id = some t₀)
    (hclock : t₀.updated_at < now) :
    ∃ s₁ t₁, partial_update_task s now task_id p = .ok (s₁, t₁) ∧
      dbLookup s₁.fake_db task_id = some t₁ ∧
      (b.title = none → t₁.title = t₀.title) ∧
      (b.title = some JVal.jnull → t₁.title = none) ∧
      (∀ str, b.title = some (JVal.jstr str) → t₁.title = some str) ∧
      (b.description = none → t₁.description = t₀.description) ∧
      (b.description = some JVal.jnull → t₁.description = none) ∧
      (∀ str, b.description = some (JVal.jstr str) →
        t₁.description = some str) ∧
      (b.completed = none → t₁.completed = t₀.completed) ∧
      (b.completed = some JVal.jnull → t₁.completed = none) ∧
      (∀ v, b.completed = some (JVal.jbool v) → t₁.completed = some v) ∧
      t₀.updated_at < t₁.updated_at := by
  obtain ⟨ht, hd, hc⟩ := parseTaskPatch_fields b p hb
  refine ⟨_, _, partial_update_task_found s now task_id p t₀ h₀,
    dbLookup_dbSet_self s.fake_db task_id _,
    ?_, ?_, ?_, ?_, ?_, ?_, ?_, ?_, ?_, hclock⟩
  · intro hbt
    rw [hbt] at ht
    have hpt : p.title = none := by
      simpa [patchTitleField] using ht.symm
    simp [model_copy_update, hpt]
  · intro hbt
    rw [hbt] at ht
    have hpt : p.title = some none := by
      simpa [patchTitleField] using ht.symm
    simp [model_copy_update, hpt]
  · intro str hbt
    rw [hbt] at ht
    simp only [patchTitleField] at ht
    by_cases hv : validTitle str = true
    · rw [if_pos hv] at ht
      have hpt : p.title = some (some str) := by
        simpa using ht.symm
      simp [model_copy_update, hpt]
    · rw [if_neg hv] at ht
      exact Option.noConfusion ht
  · intro hbd
    rw [hbd] at hd
    have hpd : p.description = none := by
      simpa [patchStrField] using hd.symm
    simp [model_copy_update, hpd]
  · intro hbd
    rw [hbd] at hd
    have hpd : p.description = some none := by
      simpa [patchStrField] using hd.symm
    simp [model_copy_update, hpd]
  · intro str hbd
    rw [hbd] at hd
    have hpd : p.description = some (some str) := by
      simpa [patchStrField] using hd.symm
    simp [model_copy_update, hpd]
  · intro hbc
    rw [hbc] at hc
    have hpc : p.completed = none := by
      simpa [patchBoolField] using hc.symm
    simp [model_copy_update, hpc]
  · intro hbc
    rw [hbc] at hc
    have hpc : p.completed = some none := by
      simpa [patchBoolField] using hc.symm
    simp [model_copy_update, hpc]
  · intro v hbc
    rw [hbc] at hc
    have hpc : p.completed = some (some v) := by
      simpa [patchBoolField] using hc.symm
    simp [model_copy_update, hpc]

/-- Witness for C1: PATCH `{"completed": true}` on a stored task. -/
theorem patch_applies_only_present_fields_witness :
    ∃ s₁ t₁,
      partial_update_task ⟨[(1, ⟨1, some "A", none, some false, 0, 0⟩)], 2⟩ 5 1
          ⟨none, none, some (some true)⟩ = .ok (s₁, t₁) ∧
      dbLookup s₁.fake_db 1 = some t₁ ∧
      ((⟨none, none, some (JVal.jbool true)⟩ : Body).title = none →
        t₁.title = (⟨1, some "A", none, some false, 0, 0⟩ : TaskInDB).title) ∧
      ((⟨none, none, some (JVal.jbool true)⟩ : Body).title = some JVal.jnull →
        t₁.title = none) ∧
      (∀ str, (⟨none, none, some (JVal.jbool true)⟩ : Body).title =
        some (JVal.jstr str) → t₁.title = some str) ∧
      ((⟨none, none, some (JVal.jbool true)⟩ : Body).description = none →
        t₁.description =
          (⟨1, some "A", none, some false, 0, 0⟩ : TaskInDB).description) ∧
      ((⟨none, none, some (JVal.jbool true)⟩ : Body).description =
        some JVal.jnull → t₁.description = none) ∧
      (∀ str, (⟨none, none, some (JVal.jbool true)⟩ : Body).description =
        some (JVal.jstr str) → t₁.description = some str) ∧
      ((⟨none, none, some (JVal.jbool true)⟩ : Body).completed = none →
        t₁.completed =
          (⟨1, some "A", none, some false, 0, 0⟩ : TaskInDB).completed) ∧
      ((⟨none, none, some (JVal.jbool true)⟩ : Body).completed =
        some JVal.jnull → t₁.completed = none) ∧
      (∀ v, (⟨none, none, some (JVal.jbool true)⟩ : Body).completed =
        some (JVal.jbool v) → t₁.completed = some v) ∧
      (⟨1, some "A", none, some false, 0, 0⟩ : TaskInDB).updated_at <
        t₁.updated_at :=
  patch_applies_only_present_fields
    ⟨[(1, ⟨1, some "A", none, some false, 0, 0⟩)], 2⟩ 5 1
    ⟨none, none, some (JVal.jbool true)⟩ ⟨none, none, some (some true)⟩
    ⟨1, some "A", none, some false, 0, 0⟩ (by decide) (by decide) (by decide)

/-- C10: a PUT body that supplies a valid title but omits `completed` is
accepted with `completed = False` (the model default, not the task's prior
value), and an omitted `description` is replaced by the absent value. -/
theorem put_omitted_fields_take_defaults (b : Body) (str : String)
    (ht : b.title = some (JVal.jstr str)) (hv : validTitle str = true)
    (hd : b.description = none) (hc : b.completed = none) :
    parseTaskPut b = some ⟨str, none, false⟩ ∧
    ∀ (s : Store) (task_id now : Nat) (t₀ : TaskInDB),
      dbLookup s.fake_db task_id = some t₀ →
      ∃ s₁ t₁, update_task s now task_id ⟨str, none, false⟩ = .ok (s₁, t₁) ∧
        dbLookup s₁.fake_db task_id = some t₁ ∧
        t₁.completed = some false ∧ t₁.description = none := by
  constructor
  · simp [parseTaskPut, reqTitleField, optStrField, boolFieldDefFalse,
      ht, hd, hc, hv]
  · intro s task_id now t₀ h₀
    exact ⟨_, _, update_task_found s now task_id ⟨str, none, false⟩ t₀ h₀,
      dbLookup_dbSet_self s.fake_db task_id _, rfl, rfl⟩

/-- Witness for C10: PUT `{"title": "B"}` on a task whose `completed` was
true resets `completed` to false and `description` to absent. -/
theorem put_omitted_fields_take_defaults_witness :
    parseTaskPut ⟨some (JVal.jstr "B"), none, none⟩ =
      some ⟨"B", none, false⟩ ∧
    ∀ (s : Store) (task_id now : Nat) (t₀ : TaskInDB),
      dbLookup s.fake_db task_id = some t₀ →
      ∃ s₁ t₁, update_task s now task_id ⟨"B", none, false⟩ = .ok (s₁, t₁) ∧
        dbLookup s₁.fake_db task_id = some t₁ ∧
        t₁.completed = some false ∧ t₁.description = none :=
  put_omitted_fields_take_defaults ⟨some (JVal.jstr "B"), none, none⟩ "B"
    (by decide) (by decide) (by decide) (by decide)

/-- C7: a request whose response is a validation failure (422) or an
`HTTPException` (the NotFound 404) leaves `fake_db` and `next_id` exactly as
they were: no partial mutation happens on any error path. -/
theorem error_responses_leave_store_unchanged (s : Store) (r : Req)
    (h : (handle s r).2 = Resp.validationError ∨
         ∃ e, (handle s r).2 = Resp.httpError e) :
    (handle s r).1 = s := by
  cases r with
  | getTask id =>
    rcases hg : get_task s id with e | t <;> simp [handle, hg]
  | postTask now b =>
    rcases hp : parseTaskCreate b with _ | tc
    · simp [handle, hp]
    · rcases hcr : create_task s now tc with ⟨s₁, t⟩
      simp [handle, hp, hcr] at h
  | putTask now id b =>
    rcases hp : parseTaskPut b with _ | tp
    · simp [handle, hp]
    · rcases hu : update_task s now id tp with e | p
      · simp [handle, hp, hu]
      · rcases p with ⟨s₁, t⟩
        simp [handle, hp, hu] at h
  | patchTask now id b =>
    rcases hp : parseTaskPatch b with _ | tp
    · simp [handle, hp]
    · rcases hu : partial_update_task s now id tp with e | p
      · simp [handle, hp, hu]
      · rcases p with ⟨s₁, t⟩
        simp [handle, hp, hu] at h
  | deleteTask id =>
    rcases hdel : delete_task s id with e | s₁
    · simp [handle, hdel]
    · simp [handle, hdel] at h

/-- Witness for C7: GET of an absent id returns 404 and changes nothing. -/
theorem error_responses_leave_store_unchanged_witness :
    (handle initStore (Req.getTask 1)).1 = initStore :=
  error_responses_leave_store_unchanged initStore (Req.getTask 1)
    (Or.inr ⟨notFound, by decide⟩)

/-- C9: the scenario POST `{"title":"A"}`, PATCH `{"completed":true}` on
id 1, DELETE id 1, GET id 1 from a fresh store yields 201 (id 1, completed
false, description absent), then 200 (title still "A", completed true), then
204, then 404 "Task not found". -/
theorem scenario_create_patch_delete_get :
    (runTrace initStore
        [Req.postTask 10 ⟨some (JVal.jstr "A"), none, none⟩,
         Req.patchTask 20 1 ⟨none, none, some (JVal.jbool true)⟩,
         Req.deleteTask 1,
         Req.getTask 1]).2 =
      [Resp.created ⟨1, some "A", none, some false, 10, 10⟩,
       Resp.okTask ⟨1, some "A", none, some true, 10, 20⟩,
       Resp.noContent,
       Resp.httpError ⟨404, "Task not found"⟩] ∧
    ((runTrace initStore
        [Req.postTask 10 ⟨some (JVal.jstr "A"), none, none⟩,
         Req.patchTask 20 1 ⟨none, none, some (JVal.jbool true)⟩,
         Req.deleteTask 1,
         Req.getTask 1]).2.map statusOf) = [201, 200, 204, 404] := by
  decide

/-- C2 counterexample: the PATCH body `{"title": null}` passes the
`TaskPatch` schema (its `title` is `Optional`), and applying it erases the
stored title: after POST `{"title":"A"}` and PATCH `{"title": null}` on
id 1, the stored task's title is absent, refuting the claim as stated. -/
theorem patch_null_title_erases_stored_title :
    parseTaskPatch ⟨some JVal.jnull, none, none⟩ =
      some ⟨some none, none, none⟩ ∧
    dbLookup (runTrace initStore
        [Req.postTask 3 ⟨some (JVal.jstr "A"), none, none⟩,
         Req.patchTask 7 1 ⟨some JVal.jnull, none, none⟩]).1.fake_db 1 =
      some ⟨1, none, none, some false, 3, 7⟩ := by
  decide

/-! ## Trace lemmas -/

theorem runTrace_cons (s : Store) (r : Req) (rs : List Req) :
    runTrace s (r :: rs) =
      ((runTrace (handle s r).1 rs).1,
       (handle s r).2 :: (runTrace (handle s r).1 rs).2) := rfl

theorem titleInv_handle (s : Store) (r : Req) (h : TitleInv s) :
    TitleInv (handle s r).1 := by
  cases r with
  | getTask id =>
    rcases hg : get_task s id with e | t <;> simpa [handle, hg] using h
  | postTask now b =>
    rcases hp : parseTaskCreate b with _ | tc
    · simpa [handle, hp] using h
    · have hvt : validTitle tc.title = true :=
        reqTitleField_valid b.title tc.title (parseTaskCreate_fields b tc hp).1
      intro q hq str hstr
      simp only [handle, hp, create_task] at hq
      rcases mem_dbSet _ _ _ _ hq with rfl | hq
      · have : some tc.title = some str := hstr
        cases this
        exact hvt
      · exact h q hq str hstr
  | putTask now id b =>
    rcases hp : parseTaskPut b with _ | tp
    · simpa [handle, hp] using h
    · rcases hl : dbLookup s.fake_db id with _ | t₀
      · simpa [handle, hp, update_task_notFound s now id tp hl] using h
      · have hvt : validTitle tp.title = true :=
          reqTitleField_valid b.title tp.title (parseTaskPut_fields b tp hp).1
        intro q hq str hstr
        simp only [handle, hp, update_task_found s now id tp t₀ hl] at hq
        rcases mem_dbSet _ _ _ _ hq with rfl | hq
        · have : some tp.title = some str := hstr
          cases this
          exact hvt
        · exact h q hq str hstr
  | patchTask now id b =>
    rcases hp : parseTaskPatch b with _ | p
    · simpa [handle, hp] using h
    · rcases hl : dbLookup s.fake_db id with _ | t₀
      · simpa [handle, hp, partial_update_task_notFound s now id p hl] using h
      · intro q hq str hstr
        simp only [handle, hp, partial_update_task_found s now id p t₀ hl] at hq
        rcases mem_dbSet _ _ _ _ hq with rfl | hq
        · rcases hpt : p.title with _ | v
          · have ht₀ : t₀.title = some str := by
              simpa [model_copy_update, hpt] using hstr
            exact h (id, t₀) (dbLookup_mem _ _ _ hl) str ht₀
          · have hv : v = some str := by
              simpa [model_copy_update, hpt] using hstr
            subst hv
            exact patchTitleField_valid b.title str
              (by rw [(parseTaskPatch_fields b p hp).1, hpt])
        · exact h q hq str hstr
  | deleteTask id =>
    rcases hl : dbLookup s.fake_db id with _ | t₀
    · simpa [handle, delete_task_notFound s id hl] using h
    · intro q hq str hstr
      simp only [handle, delete_task_found s id t₀ hl] at hq
      exact h q (mem_dbErase _ _ _ hq) str hstr

theorem titleInv_runTrace (reqs : List Req) (s : Store) (h : TitleInv s) :
    TitleInv (runTrace s reqs).1 := by
  induction reqs generalizing s with
  | nil => exact h
  | cons r rs ih =>
    rw [runTrace_cons]
    exact ih (handle s r).1 (titleInv_handle s r h)

/-- C2 (amended): in every reachable store state, every stored task whose
title is present is a non-empty string of length at most 100; but the title
can be absent, since a PATCH body with an explicit `"title": null` is
schema-accepted and erases the stored title. -/
theorem stored_titles_valid_when_present (reqs : List Req)
    (q : Nat × TaskInDB) (hq : q ∈ (runTrace initStore reqs).1.fake_db)
    (str : String) (hstr : q.2.title = some str) :
    1 ≤ str.length ∧ str.length ≤ 100 := by
  have h₀ : TitleInv initStore := by
    intro p hp
    simp [initStore] at hp
  have hv := titleInv_runTrace reqs initStore h₀ q hq str hstr
  simpa [validTitle] using hv

/-- Witness for the amended C2 at a one-request trace. -/
theorem stored_titles_valid_when_present_witness :
    1 ≤ ("A").length ∧ ("A").length ≤ 100 :=
  stored_titles_valid_when_present
    [Req.postTask 5 ⟨some (JVal.jstr "A"), none, none⟩]
    (1, ⟨1, some "A", none, some false, 5, 5⟩) (by decide) "A" (by decide)

theorem timeInv_mono (c n : Nat) (s : Store) (h : TimeInv c s)
    (hcn : c ≤ n) : TimeInv n s :=
  fun q hq => ⟨(h q hq).1, le_trans (h q hq).2 hcn⟩

theorem timeInv_handle_notime (s : Store) (r : Req) (c : Nat)
    (h : TimeInv c s) (ht : reqTime r = none) :
    TimeInv c (handle s r).1 := by
  cases r with
  | getTask id =>
    rcases hg : get_task s id with e | t <;> simpa [handle, hg] using h
  | postTask now b => simp [reqTime] at ht
  | putTask now id b => simp [reqTime] at ht
  | patchTask now id b => simp [reqTime] at ht
  | deleteTask id =>
    rcases hl : dbLookup s.fake_db id with _ | t₀
    · simpa [handle, delete_task_notFound s id hl] using h
    · intro q hq
      simp only [handle, delete_task_found s id t₀ hl] at hq
      exact h q (mem_dbErase _ _ _ hq)

theorem timeInv_handle_time (s : Store) (r : Req) (c n : Nat)
    (h : TimeInv c s) (ht : reqTime r = some n) (hcn : c ≤ n) :
    TimeInv n (handle s r).1 := by
  cases r with
  | getTask id => simp [reqTime] at ht
  | deleteTask id => simp [reqTime] at ht
  | postTask now b =>
    have hn : now = n := by simpa [reqTime] using ht
    subst hn
    rcases hp : parseTaskCreate b with _ | tc
    · simpa [handle, hp] using timeInv_mono c now s h hcn
    · intro q hq
      simp only [handle, hp, create_task] at hq
      rcases mem_dbSet _ _ _ _ hq with rfl | hq
      · exact ⟨le_refl _, le_refl _⟩
      · exact (timeInv_mono c now s h hcn) q hq
  | putTask now id b =>
    have hn : now = n := by simpa [reqTime] using ht
    subst hn
    rcases hp : parseTaskPut b with _ | tp
    · simpa [handle, hp] using timeInv_mono c now s h hcn
    · rcases hl : dbLookup s.fake_db id with _ | t₀
      · simpa [handle, hp, update_task_notFound s now id tp hl] using
          timeInv_mono c now s h hcn
      · intro q hq
        simp only [handle, hp, update_task_found s now id tp t₀ hl] at hq
        rcases mem_dbSet _ _ _ _ hq with rfl | hq
        · refine ⟨?_, le_refl _⟩
          have h₀ := h (id, t₀) (dbLookup_mem _ _ _ hl)
          exact le_trans (le_trans h₀.1 h₀.2) hcn
        · exact (timeInv_mono c now s h hcn) q hq
  | patchTask now id b =>
    have hn : now = n := by simpa [reqTime] using ht
    subst hn
    rcases hp : parseTaskPatch b with _ | p
    · simpa [handle, hp] using timeInv_mono c now s h hcn
    · rcases hl : dbLookup s.fake_db id with _ | t₀
      · simpa [handle, hp, partial_update_task_notFound s now id p hl] using
          timeInv_mono c now s h hcn
      · intro q hq
        simp only [handle, hp, partial_update_task_found s now id p t₀ hl] at hq
        rcases mem_dbSet _ _ _ _ hq with rfl | hq
        · refine ⟨?_, le_refl _⟩
          have h₀ := h (id, t₀) (dbLookup_mem _ _ _ hl)
          exact le_trans (le_trans h₀.1 h₀.2) hcn
        · exact (timeInv_mono c now s h hcn) q hq

theorem timesMono_cons (c : Nat) (r : Req) (rs : List Req) :
    timesMono c (r :: rs) =
      match reqTime r with
      | none => timesMono c rs
      | some n => decide (c ≤ n) && timesMono n rs := rfl

theorem clockAfter_cons (c : Nat) (r : Req) (rs : List Req) :
    clockAfter c (r :: rs) =
      match reqTime r with
      | none => clockAfter c rs
      | some n => clockAfter n rs := rfl

theorem timeInv_runTrace (reqs : List Req) (c : Nat) (s : Store)
    (h : TimeInv c s) (hm : timesMono c reqs = true) :
    TimeInv (clockAfter c reqs) (runTrace s reqs).1 := by
  induction reqs generalizing c s with
  | nil => exact h
  | cons r rs ih =>
    rw [runTrace_cons]
    cases ht : reqTime r with
    | none =>
      rw [timesMono_cons, ht] at hm
      have hca : clockAfter c (r :: rs) = clockAfter c rs := by
        rw [clockAfter_cons, ht]
      rw [hca]
      exact ih c (handle s r).1 (timeInv_handle_notime s r c h ht) hm
    | some n =>
      rw [timesMono_cons, ht] at hm
      have hm' : (decide (c ≤ n) && timesMono n rs) = true := hm
      have hcn : c ≤ n := of_decide_eq_true ((Bool.and_eq_true _ _).mp hm').1
      have hm₁ : timesMono n rs = true := ((Bool.and_eq_true _ _).mp hm').2
      have hca : clockAfter c (r :: rs) = clockAfter n rs := by
        rw [clockAfter_cons, ht]
      rw [hca]
      exact ih n (handle s r).1 (timeInv_handle_time s r c n h ht hcn) hm₁

/-- C8: in every reachable store state (under a monotone clock) every stored
task satisfies `updated_at ≥ created_at`; creation sets the two equal, and a
successful PUT or PATCH keeps `created_at` and sets `updated_at` to the
current time. -/
theorem updated_at_ge_created_at (reqs : List Req)
    (hm : timesMono 0 reqs = true) :
    (∀ q ∈ (runTrace initStore reqs).1.fake_db,
      q.2.created_at ≤ q.2.updated_at) ∧
    (∀ (s : Store) (now : Nat) (tc : TaskCreate),
      (create_task s now tc).2.created_at =
        (create_task s now tc).2.updated_at) ∧
    (∀ (s : Store) (now task_id : Nat) (tp : TaskPut) (t₀ : TaskInDB)
      (s₁ : Store) (t₁ : TaskInDB),
      dbLookup s.fake_db task_id = some t₀ →
      update_task s now task_id tp = .ok (s₁, t₁) →
      t₁.created_at = t₀.created_at ∧ t₁.updated_at = now) ∧
    (∀ (s : Store) (now task_id : Nat) (p : TaskPatch) (t₀ : TaskInDB)
      (s₁ : Store) (t₁ : TaskInDB),
      dbLookup s.fake_db task_id = some t₀ →
      partial_update_task s now task_id p = .ok (s₁, t₁) →
      t₁.created_at = t₀.created_at ∧ t₁.updated_at = now) := by
  refine ⟨?_, fun s now tc => rfl, ?_, ?_⟩
  · have h₀ : TimeInv 0 initStore := by
      intro q hq
      simp [initStore] at hq
    have hinv := timeInv_runTrace reqs 0 initStore h₀ hm
    exact fun q hq => (hinv q hq).1
  · intro s now task_id tp t₀ s₁ t₁ h₀ heq
    rw [update_task_found s now task_id tp t₀ h₀] at heq
    cases heq
    exact ⟨rfl, rfl⟩
  · intro s now task_id p t₀ s₁ t₁ h₀ heq
    rw [partial_update_task_found s now task_id p t₀ h₀] at heq
    cases heq
    exact ⟨rfl, rfl⟩

/-- Witness for C8 at a one-request trace with a concrete stored task. -/
theorem updated_at_ge_created_at_witness :
    (⟨1, some "A", none, some false, 5, 5⟩ : TaskInDB).created_at ≤
      (⟨1, some "A", none, some false, 5, 5⟩ : TaskInDB).updated_at :=
  (updated_at_ge_created_at
      [Req.postTask 5 ⟨some (JVal.jstr "A"), none, none⟩] (by decide)).1
    (1, ⟨1, some "A", none, some false, 5, 5⟩) (by decide)

theorem next_id_le_handle (s : Store) (r : Req) :
    s.next_id ≤ (handle s r).1.next_id := by
  cases r with
  | getTask id =>
    rcases hg : get_task s id with e | t <;> simp [handle, hg]
  | postTask now b =>
    rcases hp : parseTaskCreate b with _ | tc
    · simp [handle, hp]
    · simp [handle, hp, create_task]
  | putTask now id b =>
    rcases hp : parseTaskPut b with _ | tp
    · simp [handle, hp]
    · rcases hl : dbLookup s.fake_db id with _ | t₀
      · simp [handle, hp, update_task_notFound s now id tp hl]
      · simp [handle, hp, update_task_found s now id tp t₀ hl]
  | patchTask now id b =>
    rcases hp : parseTaskPatch b with _ | p
    · simp [handle, hp]
    · rcases hl : dbLookup s.fake_db id with _ | t₀
      · simp [handle, hp, partial_update_task_notFound s now id p hl]
      · simp [handle, hp, partial_update_task_found s now id p t₀ hl]
  | deleteTask id =>
    rcases hl : dbLookup s.fake_db id with _ | t₀
    · simp [handle, delete_task_notFound s id hl]
    · simp [handle, delete_task_found s id t₀ hl]

theorem keysLt_handle (s : Store) (r : Req) (h : KeysLt s) :
    KeysLt (handle s r).1 := by
  cases r with
  | getTask id =>
    rcases hg : get_task s id with e | t <;> simpa [handle, hg] using h
  | postTask now b =>
    rcases hp : parseTaskCreate b with _ | tc
    · simpa [handle, hp] using h
    · intro q hq
      simp only [handle, hp, create_task] at hq ⊢
      rcases mem_dbSet _ _ _ _ hq with rfl | hq
      · exact Nat.lt_succ_self _
      · exact Nat.lt_succ_of_lt (h q hq)
  | putTask now id b =>
    rcases hp : parseTaskPut b with _ | tp
    · simpa [handle, hp] using h
    · rcases hl : dbLookup s.fake_db id with _ | t₀
      · simpa [handle, hp, update_task_notFound s now id tp hl] using h
      · intro q hq
        simp only [handle, hp, update_task_found s now id tp t₀ hl] at hq ⊢
        rcases mem_dbSet _ _ _ _ hq with rfl | hq
        · exact h (id, t₀) (dbLookup_mem _ _ _ hl)
        · exact h q hq
  | patchTask now id b =>
    rcases hp : parseTaskPatch b with _ | p
    · simpa [handle, hp] using h
    · rcases hl : dbLookup s.fake_db id with _ | t₀
      · simpa [handle, hp, partial_update_task_notFound s now id p hl] using h
      · intro q hq
        simp only [handle, hp, partial_update_task_found s now id p t₀ hl]
          at hq ⊢
        rcases mem_dbSet _ _ _ _ hq with rfl | hq
        · exact h (id, t₀) (dbLookup_mem _ _ _ hl)
        · exact h q hq
  | deleteTask id =>
    rcases hl : dbLookup s.fake_db id with _ | t₀
    · simpa [handle, delete_task_notFound s id hl] using h
    · intro q hq
      simp only [handle, delete_task_found s id t₀ hl] at hq ⊢
      exact h q (mem_dbErase _ _ _ hq)

theorem handle_post_parsed (s : Store) (now : Nat) (b : Body)
    (tc : TaskCreate) (hp : parseTaskCreate b = some tc) :
    handle s (Req.postTask now b) =
      (⟨dbSet s.fake_db s.next_id
          ⟨s.next_id, some tc.title, tc.description, some tc.completed,
           now, now⟩,
        s.next_id + 1⟩,
       Resp.created ⟨s.next_id, some tc.title, tc.description,
         some tc.completed, now, now⟩) := by
  simp [handle, hp, create_task]

theorem created_id_eq (s : Store) (r : Req) (a : TaskInDB)
    (h : createdTask (handle s r).2 = some a) :
    a.id = s.next_id ∧ (handle s r).1.next_id = s.next_id + 1 := by
  cases r with
  | getTask id =>
    rcases hg : get_task s id with e | t <;> simp [handle, hg, createdTask] at h
  | postTask now b =>
    rcases hp : parseTaskCreate b with _ | tc
    · simp [handle, hp, createdTask] at h
    · rw [handle_post_parsed s now b tc hp] at h ⊢
      have h' : some (⟨s.next_id, some tc.title, tc.description,
          some tc.completed, now, now⟩ : TaskInDB) = some a := h
      cases h'
      exact ⟨rfl, rfl⟩
  | putTask now id b =>
    rcases hp : parseTaskPut b with _ | tp
    · simp [handle, hp, createdTask] at h
    · rcases hl : dbLookup s.fake_db id with _ | t₀
      · simp [handle, hp, update_task_notFound s now id tp hl, createdTask]
          at h
      · simp [handle, hp, update_task_found s now id tp t₀ hl, createdTask]
          at h
  | patchTask now id b =>
    rcases hp : parseTaskPatch b with _ | p
    · simp [handle, hp, createdTask] at h
    · rcases hl : dbLookup s.fake_db id with _ | t₀
      · simp [handle, hp, partial_update_task_notFound s now id p hl,
          createdTask] at h
      · simp [handle, hp, partial_update_task_found s now id p t₀ hl,
          createdTask] at h
  | deleteTask id =>
    rcases hl : dbLookup s.fake_db id with _ | t₀
    · simp [handle, delete_task_notFound s id hl, createdTask] at h
    · simp [handle, delete_task_found s id t₀ hl, createdTask] at h

theorem deleted_id_lt (s : Store) (r : Req) (i : Nat) (hk : KeysLt s)
    (h : deletedId (r, (handle s r).2) = some i) : i < s.next_id := by
  cases r with
  | getTask j => simp [deletedId] at h
  | postTask now b => simp [deletedId] at h
  | putTask now j b => simp [deletedId] at h
  | patchTask now j b => simp [deletedId] at h
  | deleteTask j =>
    rcases hl : dbLookup s.fake_db j with _ | t₀
    · simp [handle, delete_task_notFound s j hl, deletedId] at h
    · have h' : some j = some i := by
        simpa [handle, delete_task_found s j t₀ hl, deletedId] using h
      cases h'
      exact hk (i, t₀) (dbLookup_mem _ _ _ hl)

theorem created_in_zip_ge (reqs : List Req) (s : Store) :
    ∀ pr ∈ reqs.zip (runTrace s reqs).2, ∀ a,
      createdTask pr.2 = some a → s.next_id ≤ a.id := by
  induction reqs generalizing s with
  | nil =>
    intro pr hpr
    simp [runTrace] at hpr
  | cons r rs ih =>
    intro pr hpr a ha
    rw [runTrace_cons, List.zip_cons_cons, List.mem_cons] at hpr
    rcases hpr with rfl | hpr
    · exact le_of_eq (created_id_eq s r a ha).1.symm
    · exact le_trans (next_id_le_handle s r)
        (ih (handle s r).1 pr hpr a ha)

theorem idRel_pairwise (reqs : List Req) (s : Store) (hk : KeysLt s) :
    List.Pairwise IdRel (reqs.zip (runTrace s reqs).2) := by
  induction reqs generalizing s with
  | nil => simp [runTrace]
  | cons r rs ih =>
    rw [runTrace_cons, List.zip_cons_cons]
    refine List.Pairwise.cons ?_ (ih (handle s r).1 (keysLt_handle s r hk))
    intro y hy
    constructor
    · intro a b ha hb
      obtain ⟨haid, hnext⟩ := created_id_eq s r a ha
      have hb' := created_in_zip_ge rs (handle s r).1 y hy b hb
      omega
    · intro i b hi hb
      have hlt : i < s.next_id := deleted_id_lt s r i hk hi
      have hb' := created_in_zip_ge rs (handle s r).1 y hy b hb
      have hle := next_id_le_handle s r
      omega

/-- C3: along any request trace from the initial store, the ids of
successively created tasks are strictly increasing, an id whose DELETE
succeeded is never the id of a later-created task, and no operation ever
decreases the `next_id` counter. -/
theorem create_ids_strictly_increasing_never_reused :
    (∀ reqs : List Req,
      List.Pairwise IdRel (reqs.zip (runTrace initStore reqs).2)) ∧
    (∀ (s : Store) (r : Req), s.next_id ≤ (handle s r).1.next_id) := by
  constructor
  · intro reqs
    refine idRel_pairwise reqs initStore ?_
    intro q hq
    simp [initStore] at hq
  · exact next_id_le_handle

theorem absent_preserved_step (s : Store) (r : Req) (i : Nat)
    (h : dbLookup s.fake_db i = none)
    (hnc : ∀ a, createdTask (handle s r).2 = some a → a.id ≠ i) :
    dbLookup (handle s r).1.fake_db i = none := by
  cases r with
  | getTask j =>
    rcases hg : get_task s j with e | t <;> simpa [handle, hg] using h
  | postTask now b =>
    rcases hp : parseTaskCreate b with _ | tc
    · simpa [handle, hp] using h
    · have ha : createdTask (handle s (Req.postTask now b)).2 =
          some ⟨s.next_id, some tc.title, tc.description, some tc.completed,
            now, now⟩ := by
        rw [handle_post_parsed s now b tc hp]
        rfl
      have hne : s.next_id ≠ i := hnc _ ha
      rw [handle_post_parsed s now b tc hp]
      rw [dbLookup_dbSet_ne _ _ _ _ (fun hEq => hne hEq.symm)]
      exact h
  | putTask now j b =>
    rcases hp : parseTaskPut b with _ | tp
    · simpa [handle, hp] using h
    · rcases hl : dbLookup s.fake_db j with _ | t₀
      · simpa [handle, hp, update_task_notFound s now j tp hl] using h
      · have hne : i ≠ j := by
          intro hEq
          rw [hEq, hl] at h
          exact Option.noConfusion h
        simp only [handle, hp, update_task_found s now j tp t₀ hl]
        rw [dbLookup_dbSet_ne _ _ _ _ hne]
        exact h
  | patchTask now j b =>
    rcases hp : parseTaskPatch b with _ | p
    · simpa [handle, hp] using h
    · rcases hl : dbLookup s.fake_db j with _ | t₀
      · simpa [handle, hp, partial_update_task_notFound s now j p hl] using h
      · have hne : i ≠ j := by
          intro hEq
          rw [hEq, hl] at h
          exact Option.noConfusion h
        simp only [handle, hp, partial_update_task_found s now j p t₀ hl]
        rw [dbLookup_dbSet_ne _ _ _ _ hne]
        exact h
  | deleteTask j =>
    rcases hl : dbLookup s.fake_db j with _ | t₀
    · simpa [handle, delete_task_notFound s j hl] using h
    · simp only [handle, delete_task_found s j t₀ hl]
      by_cases hi : i = j
      · subst hi
        exact dbLookup_dbErase_self _ _
      · rw [dbLookup_dbErase_ne _ _ _ hi]
        exact h

theorem absent_preserved (reqs : List Req) (s : Store) (i : Nat)
    (h : dbLookup s.fake_db i = none)
    (hnc : ∀ pr ∈ reqs.zip (runTrace s reqs).2, ∀ a,
      createdTask pr.2 = some a → a.id ≠ i) :
    dbLookup (runTrace s reqs).1.fake_db i = none := by
  induction reqs generalizing s with
  | nil => exact h
  | cons r rs ih =>
    rw [runTrace_cons]
    refine ih (handle s r).1 (absent_preserved_step s r i h ?_) ?_
    · intro a ha
      refine hnc (r, (handle s r).2) ?_ a ha
      rw [runTrace_cons, List.zip_cons_cons]
      exact List.mem_cons_self _ _
    · intro pr hpr a ha
      refine hnc pr ?_ a ha
      rw [runTrace_cons, List.zip_cons_cons]
      exact List.mem_cons_of_mem _ hpr

theorem delete_absent_loop (s : Store) (i : Nat) (n : Nat)
    (h : dbLookup s.fake_db i = none) :
    (runTrace s (List.replicate n (Req.deleteTask i))).2 =
      List.replicate n (Resp.httpError notFound) := by
  induction n generalizing s with
  | zero => rfl
  | succ n ih =>
    have hstep : handle s (Req.deleteTask i) = (s, .httpError notFound) := by
      simp [handle, delete_task_notFound s i h]
    rw [List.replicate_succ, runTrace_cons, hstep]
    rw [List.replicate_succ]
    exact congrArg _ (ih s h)

/-- C6: after a successful DELETE of id `i`, every subsequent GET, PUT,
PATCH or DELETE on `i` — across any further requests none of which creates a
task with id `i` — signals NotFound with the fixed message "Task not found",
and repeated DELETE on the absent id always yields that same signal. -/
theorem deleted_id_yields_not_found (s : Store) (i : Nat) (s₁ : Store)
    (hdel : delete_task s i = .ok s₁) (reqs : List Req)
    (hnc : ∀ pr ∈ reqs.zip (runTrace s₁ reqs).2, ∀ a,
      createdTask pr.2 = some a → a.id ≠ i) :
    get_task (runTrace s₁ reqs).1 i = .error notFound ∧
    (∀ (now : Nat) (tp : TaskPut),
      update_task (runTrace s₁ reqs).1 now i tp = .error notFound) ∧
    (∀ (now : Nat) (p : TaskPatch),
      partial_update_task (runTrace s₁ reqs).1 now i p = .error notFound) ∧
    delete_task (runTrace s₁ reqs).1 i = .error notFound ∧
    (∀ n : Nat,
      (runTrace (runTrace s₁ reqs).1
        (List.replicate n (Req.deleteTask i))).2 =
      List.replicate n (Resp.httpError notFound)) ∧
    notFound = ⟨404, "Task not found"⟩ := by
  have h₁ : dbLookup s₁.fake_db i = none := by
    rcases hl : dbLookup s.fake_db i with _ | t₀
    · rw [delete_task_notFound s i hl] at hdel
      exact Except.noConfusion hdel
    · rw [delete_task_found s i t₀ hl] at hdel
      cases hdel
      exact dbLookup_dbErase_self _ _
  have habs := absent_preserved reqs s₁ i h₁ hnc
  exact ⟨get_task_notFound _ _ habs,
    fun now tp => update_task_notFound _ _ _ _ habs,
    fun now p => partial_update_task_notFound _ _ _ _ habs,
    delete_task_notFound _ _ habs,
    fun n => delete_absent_loop _ _ n habs,
    rfl⟩

/-- Witness for C6: delete the only task, then query it again. -/
theorem deleted_id_yields_not_found_witness :
    get_task (runTrace ⟨[], 2⟩ []).1 1 = .error notFound ∧
    (∀ (now : Nat) (tp : TaskPut),
      update_task (runTrace ⟨[], 2⟩ []).1 now 1 tp = .error notFound) ∧
    (∀ (now : Nat) (p : TaskPatch),
      partial_update_task (runTrace ⟨[], 2⟩ []).1 now 1 p =
        .error notFound) ∧
    delete_task (runTrace ⟨[], 2⟩ []).1 1 = .error notFound ∧
    (∀ n : Nat,
      (runTrace (runTrace ⟨[], 2⟩ []).1
        (List.replicate n (Req.deleteTask 1))).2 =
      List.replicate n (Resp.httpError notFound)) ∧
    notFound = ⟨404, "Task not found"⟩ :=
  deleted_id_yields_not_found
    ⟨[(1, ⟨1, some "A", none, some false, 0, 0⟩)], 2⟩ 1 ⟨[], 2⟩ rfl []
    (by simp)
